import Mathlib

/-!
Shallow embedding of the covered core of the repository:
  * src/commons/zenoh-buffers/src/zslice.rs  (Slice View `ZSlice` and its reader)
  * src/zenoh/src/api/builders/publisher.rs  (publisher / publication builders)

Machine integers (`usize`) are modelled as `Nat`; byte buffers
(`Arc<dyn ZSliceBuffer>`) as the list of bytes they contain; Rust panics and
`DidntRead` failures as `Option`/`Except` results.  Each definition carries a
doc comment naming the source item it embeds.
-/

/-- Buffer models `Arc<dyn ZSliceBuffer>`: the byte content of the shared
backing storage (bytes as `Nat`, values of Rust `u8`). -/
abbrev Buffer := List Nat

/-- ZSlice (zslice.rs lines 60-64): a window over a shared buffer.  The Rust
field `end` is a Lean keyword and is rendered `stop`. -/
structure ZSlice where
  buf : Buffer
  start : Nat
  stop : Nat
deriving Repr, DecidableEq

/-- ZSlice::make (zslice.rs lines 67-77): `if end <= buf.as_slice().len()`
the slice is built, otherwise the buffer is handed back unchanged.  Note the
source checks only `end`, never `start <= end`. -/
def ZSlice.make (buf : Buffer) (start stop : Nat) : Except Buffer ZSlice :=
  if stop ≤ buf.length then Except.ok ⟨buf, start, stop⟩ else Except.error buf

/-- ZSlice::len (zslice.rs lines 80-82): `self.end - self.start`
(truncated `Nat` subtraction models `usize` subtraction on the in-invariant
states where `start <= end`). -/
def ZSlice.len (z : ZSlice) : Nat :=
  z.stop - z.start

/-- ZSlice::is_empty (zslice.rs lines 85-87). -/
def ZSlice.is_empty (z : ZSlice) : Bool :=
  z.len == 0

/-- ZSlice::as_slice (zslice.rs lines 90-92): `&buf.as_slice()[start..end]`,
the bytes with indices in `[start, end)`. -/
def ZSlice.as_slice (z : ZSlice) : List Nat :=
  (z.buf.take z.stop).drop z.start

/-- ZSlice::new_sub_slice (zslice.rs lines 105-115): `Some` when
`end <= self.len()` (the source never compares `start` with `end`), sharing
the buffer with absolute bounds `self.start + start` and `self.start + end`. -/
def ZSlice.new_sub_slice (z : ZSlice) (start stop : Nat) : Option ZSlice :=
  if stop ≤ z.len then some ⟨z.buf, z.start + start, z.start + stop⟩ else none

/-- Index<usize> for ZSlice (zslice.rs lines 132-138):
`&self.buf.as_slice()[self.start + index]` — indexing is performed on the
whole backing buffer at absolute position `start + index`; `none` models the
out-of-bounds panic of the Rust slice index. -/
def ZSlice.indexUsize (z : ZSlice) (i : Nat) : Option Nat :=
  z.buf[z.start + i]?

/-- Window indexing as the spec words it ("equivalent to byte-slice indexing
on the window"): index `i` of `buffer[start..end]`.  This is the spec-side
definition used to compare claim C6 against `ZSlice.indexUsize`. -/
def ZSlice.windowIndex (z : ZSlice) (i : Nat) : Option Nat :=
  z.as_slice[i]?

/-- Invariant of the data model (spec section 3): `start ≤ end ≤ len(buffer)`. -/
def ZSlice.Inv (z : ZSlice) : Prop :=
  z.start ≤ z.stop ∧ z.stop ≤ z.buf.length

instance (z : ZSlice) : Decidable z.Inv := by
  unfold ZSlice.Inv
  infer_instance

/-- Reader::read for `&mut ZSlice` (zslice.rs lines 256-261): delegates to the
`&[u8]` reader over `self.as_slice()` and advances `start` by the number of
bytes copied.  The inner `&[u8]` reader is not among the sources; Modelled
from the spec: `read(dst)` copies up to `len(dst)` bytes out of the window,
never copies zero bytes and returns success (so it fails exactly when
`min(len(dst), window)` is zero).  `dstLen` is the destination length; the
result is the bytes copied and the advanced reader. -/
def ZSlice.read (z : ZSlice) (dstLen : Nat) : Option (List Nat × ZSlice) :=
  if min dstLen z.as_slice.length = 0 then none
  else some (z.as_slice.take (min dstLen z.as_slice.length),
    { z with start := z.start + min dstLen z.as_slice.length })

/-- Reader::read_exact for `&mut ZSlice` (zslice.rs lines 263-268): the inner
`&[u8]` reader is not among the sources; Modelled from the spec: `read_exact`
copies exactly `len(dst)` bytes or fails, and the outer code advances `start`
by `into.len()` on success. -/
def ZSlice.read_exact (z : ZSlice) (dstLen : Nat) : Option (List Nat × ZSlice) :=
  if dstLen ≤ z.as_slice.length then
    some (z.as_slice.take dstLen, { z with start := z.start + dstLen })
  else none

/-- Reader::read_u8 for `&mut ZSlice` (zslice.rs lines 270-275): the inner
`&[u8]` reader is not among the sources; Modelled from the spec:
`read_one_byte` yields the first byte of the window or `DidntRead`; the outer
code then advances `start` by 1. -/
def ZSlice.read_u8 (z : ZSlice) : Option (Nat × ZSlice) :=
  match z.as_slice with
  | [] => none
  | b :: _ => some (b, { z with start := z.start + 1 })

/-- Reader::read_zslice for `&mut ZSlice` (zslice.rs lines 283-287):
`new_sub_slice(0, len)` or `DidntRead`, then `start += len`. -/
def ZSlice.read_zslice (z : ZSlice) (len : Nat) : Option (ZSlice × ZSlice) :=
  match z.new_sub_slice 0 len with
  | some res => some (res, { z with start := z.start + len })
  | none => none

/-- Reader::remaining for `&mut ZSlice` (zslice.rs lines 289-291). -/
def ZSlice.remaining (z : ZSlice) : Nat :=
  z.len

/-- Reader::can_read for `&mut ZSlice` (zslice.rs lines 293-295). -/
def ZSlice.can_read (z : ZSlice) : Bool :=
  !z.is_empty

/-- BacktrackableReader::mark for `&mut ZSlice` (zslice.rs lines 301-303):
the mark is the cursor value `start`. -/
def ZSlice.mark (z : ZSlice) : Nat :=
  z.start

/-- BacktrackableReader::rewind for `&mut ZSlice` (zslice.rs lines 305-308):
sets `start := mark` unconditionally and returns `true`. -/
def ZSlice.rewind (z : ZSlice) (m : Nat) : Bool × ZSlice :=
  (true, { z with start := m })

/-- One successful operation of the `&mut ZSlice` reader (zslice.rs lines
255-296): any of read, read_exact, read_u8, read_zslice succeeding. -/
inductive ReadStep : ZSlice → ZSlice → Prop
  | read (z : ZSlice) (dstLen : Nat) (out : List Nat) (z' : ZSlice) :
      z.read dstLen = some (out, z') → ReadStep z z'
  | read_exact (z : ZSlice) (dstLen : Nat) (out : List Nat) (z' : ZSlice) :
      z.read_exact dstLen = some (out, z') → ReadStep z z'
  | read_u8 (z : ZSlice) (b : Nat) (z' : ZSlice) :
      z.read_u8 = some (b, z') → ReadStep z z'
  | read_zslice (z : ZSlice) (len : Nat) (res : ZSlice) (z' : ZSlice) :
      z.read_zslice len = some (res, z') → ReadStep z z'

/-- Any (possibly empty) sequence of successful reads on the `&mut ZSlice`
reader. -/
inductive ReadsTo : ZSlice → ZSlice → Prop
  | refl (z : ZSlice) : ReadsTo z z
  | step (z z' z'' : ZSlice) : ReadsTo z z' → ReadStep z' z'' → ReadsTo z z''

/-- SampleKind (imported by publisher.rs): `{Put, Delete}`. -/
inductive SampleKind
  | put
  | delete
deriving Repr, DecidableEq

/-- CongestionControl (imported by publisher.rs): `{Drop, Block}`. -/
inductive CongestionControl
  | drop
  | block
deriving Repr, DecidableEq

/-- Priority (imported by publisher.rs): a small ordered enum, kept opaque. -/
abbrev Priority := Nat

/-- Reliability (imported by publisher.rs): `{BestEffort, Reliable}`. -/
inductive Reliability
  | bestEffort
  | reliable
deriving Repr, DecidableEq

/-- Locality (imported by publisher.rs): `{SessionLocal, Remote, Any}`. -/
inductive Locality
  | sessionLocal
  | remote
  | any
deriving Repr, DecidableEq

/-- Mapping (zenoh_protocol::network::Mapping); publisher.rs uses
`Mapping::Sender`. -/
inductive Mapping
  | sender
  | receiver
deriving Repr, DecidableEq

/-- Encoding (imported by publisher.rs), kept opaque up to the reserved
constant. -/
structure Encoding where
  eid : Nat
deriving Repr, DecidableEq

/-- Encoding::ZENOH_BYTES, the reserved "zenoh bytes" encoding used by the
Delete resolution paths. -/
def Encoding.ZENOH_BYTES : Encoding := ⟨0⟩

/-- ZBytes (payload / attachment container), modelled by its byte content. -/
abbrev ZBytes := List Nat

/-- ZBytes::new(): the empty payload. -/
def ZBytes.new : ZBytes := []

/-- Timestamp (uhlc::Timestamp), kept opaque. -/
abbrev Timestamp := Nat

/-- SourceInfo, kept opaque. -/
abbrev SourceInfo := Nat

/-- Errors (`zenoh_core::Result` error side), modelled as their message; the
`zerror!` format of the clone path becomes string concatenation. -/
abbrev ZError := String

/-- KeyExprInner (crate::api::key_expr, matched on in publisher.rs lines
384-405): the four internal forms of a key expression. -/
inductive KeyExprInner
  | borrowed (ke : String)
  | borrowedWire (ke : String) (expr_id : Nat) (mapping : Mapping)
      (prefLen : Nat) (session_id : Nat)
  | owned (ke : String)
  | wire (ke : String) (expr_id : Nat) (mapping : Mapping)
      (prefLen : Nat) (session_id : Nat)
deriving Repr, DecidableEq

/-- KeyExpr: the tuple struct `KeyExpr(KeyExprInner)`. -/
structure KeyExpr where
  inner : KeyExprInner
deriving Repr, DecidableEq

/-- KeyExpr::as_str: the underlying string of any of the four forms. -/
def KeyExpr.as_str (k : KeyExpr) : String :=
  match k.inner with
  | .borrowed ke => ke
  | .borrowedWire ke _ _ _ _ => ke
  | .owned ke => ke
  | .wire ke _ _ _ _ => ke

/-- KeyExpr::len: byte length of the key expression string. -/
def KeyExpr.len (k : KeyExpr) : Nat :=
  k.as_str.length

/-- Modelled from the spec: `KeyExpr::is_fully_optimized` (key_expr.rs is not
among the sources).  The spec reads "it does not yet carry an interned prefix
id for this session", so a key expression is fully optimised against a session
exactly when it is in a wire form whose recorded session id matches. -/
def KeyExpr.is_fully_optimized (k : KeyExpr) (session_id : Nat) : Bool :=
  match k.inner with
  | .borrowedWire _ _ _ _ sid => sid == session_id
  | .wire _ _ _ _ sid => sid == session_id
  | _ => false

/-- Session (out of scope per the spec; consumed through `declare_prefix`,
`declare_publisher_inner`, `resolve_put` and `downgrade`).  Each consumed
operation is modelled as an oracle function giving the session's reply;
`declExprId` stands for `declare_prefix` and returns the interned `expr_id`. -/
structure Session where
  sid : Nat
  declExprId : String → Except ZError Nat
  declarePublisherInner : KeyExpr → Locality → Except ZError Nat
  resolvePut : KeyExpr → ZBytes → SampleKind → Encoding → CongestionControl →
    Priority → Bool → Locality → Reliability → Option Timestamp → SourceInfo →
    Option ZBytes → Except ZError Unit

/-- WeakSession: the weakened session reference produced by
`Session::downgrade` and stored in a Publisher handle. -/
structure WeakSession where
  session : Session

/-- Session::downgrade (publisher.rs line 412 uses it). -/
def Session.downgrade (s : Session) : WeakSession :=
  ⟨s⟩

/-- SessionCall is the observable trace of calls a resolution makes on the
session; `declExprId` records a `declare_prefix` call. -/
inductive SessionCall
  | declExprId (s : String)
  | declarePublisherInner (k : KeyExpr) (dest : Locality)
  | resolvePut (k : KeyExpr) (payload : ZBytes) (kind : SampleKind)
      (encoding : Encoding) (cc : CongestionControl) (p : Priority)
      (is_express : Bool) (dest : Locality) (rel : Reliability)
      (ts : Option Timestamp) (si : SourceInfo) (att : Option ZBytes)

/-- Counts the `declare_prefix` calls in a trace. -/
def countDeclExprId : List SessionCall → Nat
  | [] => 0
  | .declExprId _ :: rest => countDeclExprId rest + 1
  | _ :: rest => countDeclExprId rest

/-- Counts the `declare_publisher_inner` calls in a trace. -/
def countDeclPub : List SessionCall → Nat
  | [] => 0
  | .declarePublisherInner _ _ :: rest => countDeclPub rest + 1
  | _ :: rest => countDeclPub rest

/-- Counts the `resolve_put` calls in a trace. -/
def countResolvePut : List SessionCall → Nat
  | [] => 0
  | .resolvePut _ _ _ _ _ _ _ _ _ _ _ _ :: rest => countResolvePut rest + 1
  | _ :: rest => countResolvePut rest

/-- PublisherBuilder (publisher.rs lines 285-295). -/
structure PublisherBuilder where
  session : Session
  key_expr : Except ZError KeyExpr
  encoding : Encoding
  congestion_control : CongestionControl
  priority : Priority
  is_express : Bool
  reliability : Reliability
  destination : Locality

/-- Clone for PublisherBuilder (publisher.rs lines 297-314): the key
expression result is deep-cloned; an error clones to
`zerror!("Cloned KE Error: {}", e)`. -/
def PublisherBuilder.clone (b : PublisherBuilder) : PublisherBuilder :=
  { session := b.session
    key_expr :=
      match b.key_expr with
      | .ok k => .ok k
      | .error e => .error ("Cloned KE Error: " ++ e)
    encoding := b.encoding
    congestion_control := b.congestion_control
    priority := b.priority
    is_express := b.is_express
    reliability := b.reliability
    destination := b.destination }

/-- Publisher (the handle built at publisher.rs lines 411-425). -/
structure Publisher where
  session : WeakSession
  id : Nat
  key_expr : KeyExpr
  encoding : Encoding
  congestion_control : CongestionControl
  priority : Priority
  is_express : Bool
  destination : Locality
  reliability : Reliability
  undeclare_on_drop : Bool

/-- Wait for PublisherBuilder (publisher.rs lines 374-427), instrumented with
the trace of session calls: unwrap `key_expr`; if it is not fully optimised,
`declare_prefix` and rewrite it to the matching wire form with
`mapping := Sender`, `prefix_len := key_expr.len()` and the session id; then
`declare_publisher_inner` and build the handle with the QoS fields, the
downgraded session and `undeclare_on_drop := true`.  (The 32-bit bound
assertion on `prefix_len` is a panic outside `Nat` and is not modelled.) -/
def PublisherBuilder.wait (b : PublisherBuilder) :
    Except ZError Publisher × List SessionCall :=
  match b.key_expr with
  | .error e => (.error e, [])
  | .ok ke0 =>
    let session_id := b.session.sid
    let step1 : Except ZError KeyExpr × List SessionCall :=
      if ke0.is_fully_optimized session_id then (.ok ke0, [])
      else
        match b.session.declExprId ke0.as_str with
        | .error e => (.error e, [.declExprId ke0.as_str])
        | .ok expr_id =>
          let prefLen := ke0.len
          let ke1 : KeyExpr :=
            match ke0.inner with
            | .borrowed ke =>
              ⟨.borrowedWire ke expr_id .sender prefLen session_id⟩
            | .borrowedWire ke _ _ _ _ =>
              ⟨.borrowedWire ke expr_id .sender prefLen session_id⟩
            | .owned ke =>
              ⟨.wire ke expr_id .sender prefLen session_id⟩
            | .wire ke _ _ _ _ =>
              ⟨.wire ke expr_id .sender prefLen session_id⟩
          (.ok ke1, [.declExprId ke0.as_str])
    match step1 with
    | (.error e, log) => (.error e, log)
    | (.ok key_expr, log) =>
      match b.session.declarePublisherInner key_expr b.destination with
      | .error e => (.error e, log ++ [.declarePublisherInner key_expr b.destination])
      | .ok id =>
        (.ok { session := b.session.downgrade
               id := id
               key_expr := key_expr
               encoding := b.encoding
               congestion_control := b.congestion_control
               priority := b.priority
               is_express := b.is_express
               destination := b.destination
               reliability := b.reliability
               undeclare_on_drop := true },
         log ++ [.declarePublisherInner key_expr b.destination])

/-- PublicationBuilderPut (publisher.rs lines 49-52). -/
structure PublicationBuilderPut where
  payload : ZBytes
  encoding : Encoding

/-- PublicationBuilderDelete (publisher.rs line 54). -/
structure PublicationBuilderDelete where

/-- PublicationBuilder (publisher.rs lines 81-88), generic over the target
`P` (a PublisherBuilder or a Publisher handle) and the kind `T`. -/
structure PublicationBuilder (P : Type) (T : Type) where
  publisher : P
  kind : T
  timestamp : Option Timestamp
  source_info : SourceInfo
  attachment : Option ZBytes

/-- Wait for PublicationBuilder of PublisherBuilder and Put (publisher.rs
lines 205-225): `resolve_put` on the session with the builder's payload,
`SampleKind::Put`, the put encoding and the inner builder's QoS; the key
expression `?`-propagates its error. -/
def sessionPutWait (b : PublicationBuilder PublisherBuilder PublicationBuilderPut) :
    Except ZError Unit × List SessionCall :=
  match b.publisher.key_expr with
  | .error e => (.error e, [])
  | .ok k =>
    (b.publisher.session.resolvePut k b.kind.payload .put b.kind.encoding
        b.publisher.congestion_control b.publisher.priority
        b.publisher.is_express b.publisher.destination b.publisher.reliability
        b.timestamp b.source_info b.attachment,
     [.resolvePut k b.kind.payload .put b.kind.encoding
        b.publisher.congestion_control b.publisher.priority
        b.publisher.is_express b.publisher.destination b.publisher.reliability
        b.timestamp b.source_info b.attachment])

/-- Wait for PublicationBuilder of PublisherBuilder and Delete (publisher.rs
lines 227-247): `resolve_put` with `ZBytes::new()`, `SampleKind::Delete` and
`Encoding::ZENOH_BYTES`. -/
def sessionDeleteWait (b : PublicationBuilder PublisherBuilder PublicationBuilderDelete) :
    Except ZError Unit × List SessionCall :=
  match b.publisher.key_expr with
  | .error e => (.error e, [])
  | .ok k =>
    (b.publisher.session.resolvePut k ZBytes.new .delete Encoding.ZENOH_BYTES
        b.publisher.congestion_control b.publisher.priority
        b.publisher.is_express b.publisher.destination b.publisher.reliability
        b.timestamp b.source_info b.attachment,
     [.resolvePut k ZBytes.new .delete Encoding.ZENOH_BYTES
        b.publisher.congestion_control b.publisher.priority
        b.publisher.is_express b.publisher.destination b.publisher.reliability
        b.timestamp b.source_info b.attachment])

/-- Wait for PublicationBuilder of &Publisher and Put (publisher.rs lines
438-457): `resolve_put` through the handle's (weak) session with the handle's
key expression and QoS. -/
def publisherPutWait (b : PublicationBuilder Publisher PublicationBuilderPut) :
    Except ZError Unit × List SessionCall :=
  (b.publisher.session.session.resolvePut b.publisher.key_expr b.kind.payload
      .put b.kind.encoding b.publisher.congestion_control b.publisher.priority
      b.publisher.is_express b.publisher.destination b.publisher.reliability
      b.timestamp b.source_info b.attachment,
   [.resolvePut b.publisher.key_expr b.kind.payload .put b.kind.encoding
      b.publisher.congestion_control b.publisher.priority
      b.publisher.is_express b.publisher.destination b.publisher.reliability
      b.timestamp b.source_info b.attachment])

/-- Wait for PublicationBuilder of &Publisher and Delete (publisher.rs lines
459-478): `resolve_put` through the handle's (weak) session with
`ZBytes::new()`, `SampleKind::Delete` and `Encoding::ZENOH_BYTES`. -/
def publisherDeleteWait (b : PublicationBuilder Publisher PublicationBuilderDelete) :
    Except ZError Unit × List SessionCall :=
  (b.publisher.session.session.resolvePut b.publisher.key_expr ZBytes.new
      .delete Encoding.ZENOH_BYTES b.publisher.congestion_control
      b.publisher.priority b.publisher.is_express b.publisher.destination
      b.publisher.reliability b.timestamp b.source_info b.attachment,
   [.resolvePut b.publisher.key_expr ZBytes.new .delete Encoding.ZENOH_BYTES
      b.publisher.congestion_control b.publisher.priority
      b.publisher.is_express b.publisher.destination b.publisher.reliability
      b.timestamp b.source_info b.attachment])

/-- Demo session used by concrete instantiations: fixed replies for each
consumed operation. -/
def demoSession : Session where
  sid := 7
  declExprId := fun _ => .ok 42
  declarePublisherInner := fun _ _ => .ok 3
  resolvePut := fun _ _ _ _ _ _ _ _ _ _ _ _ => .ok ()

/-- Demo key expression in owned form. -/
def demoKey : KeyExpr := ⟨.owned "a/b"⟩

/-- Demo publisher builder with a valid key expression. -/
def demoPubBuilder : PublisherBuilder :=
  { session := demoSession
    key_expr := .ok demoKey
    encoding := ⟨1⟩
    congestion_control := .block
    priority := 5
    is_express := false
    reliability := .reliable
    destination := .any }

/-- Demo publisher builder whose key expression is a deferred error. -/
def demoBadBuilder : PublisherBuilder :=
  { demoPubBuilder with key_expr := .error "bad" }

/-- The publisher handle that resolving demoPubBuilder on demoSession
produces. -/
def demoP : Publisher :=
  { session := demoSession.downgrade
    id := 3
    key_expr := ⟨.wire "a/b" 42 .sender 3 7⟩
    encoding := ⟨1⟩
    congestion_control := .block
    priority := 5
    is_express := false
    destination := .any
    reliability := .reliable
    undeclare_on_drop := true }

/-- Demo session-path put publication. -/
def demoPutSession : PublicationBuilder PublisherBuilder PublicationBuilderPut :=
  { publisher := demoPubBuilder
    kind := ⟨[104, 105], ⟨2⟩⟩
    timestamp := none
    source_info := 0
    attachment := none }

/-- Demo session-path delete publication. -/
def demoDeleteSession : PublicationBuilder PublisherBuilder PublicationBuilderDelete :=
  { publisher := demoPubBuilder
    kind := ⟨⟩
    timestamp := none
    source_info := 0
    attachment := none }

/-- Demo publisher-path delete publication on the demoP handle. -/
def demoDeletePublisher : PublicationBuilder Publisher PublicationBuilderDelete :=
  { publisher := demoP
    kind := ⟨⟩
    timestamp := none
    source_info := 0
    attachment := none }

lemma ZSlice.as_slice_length_of_inv {z : ZSlice} (h : z.Inv) :
    z.as_slice.length = z.len := by
  obtain ⟨h1, h2⟩ := h
  simp only [ZSlice.as_slice, ZSlice.len, List.length_drop, List.length_take]
  omega

lemma ReadStep.shape {z z' : ZSlice} (h : ReadStep z z') :
    ∃ k, (k ≤ z.as_slice.length ∨ k ≤ z.len) ∧
      z' = { z with start := z.start + k } := by
  cases h with
  | read d out w h =>
    unfold ZSlice.read at h
    split at h
    · exact absurd h (by simp)
    · simp only [Option.some.injEq, Prod.mk.injEq] at h
      exact ⟨_, Or.inl (Nat.min_le_right _ _), h.2.symm⟩
  | read_exact d out w h =>
    unfold ZSlice.read_exact at h
    split at h
    · rename_i hle
      simp only [Option.some.injEq, Prod.mk.injEq] at h
      exact ⟨d, Or.inl hle, h.2.symm⟩
    · exact absurd h (by simp)
  | read_u8 b w h =>
    unfold ZSlice.read_u8 at h
    split at h
    · exact absurd h (by simp)
    · rename_i b' tail heq
      simp only [Option.some.injEq, Prod.mk.injEq] at h
      refine ⟨1, Or.inl ?_, h.2.symm⟩
      rw [heq]
      simp
  | read_zslice len res w h =>
    unfold ZSlice.read_zslice at h
    split at h
    · rename_i val heq
      unfold ZSlice.new_sub_slice at heq
      split at heq
      · rename_i hle
        simp only [Option.some.injEq, Prod.mk.injEq] at h
        exact ⟨len, Or.inr hle, h.2.symm⟩
      · exact absurd heq (by simp)
    · exact absurd h (by simp)

lemma ReadStep.buf_eq {z z' : ZSlice} (h : ReadStep z z') : z'.buf = z.buf := by
  obtain ⟨k, -, rfl⟩ := h.shape
  rfl

lemma ReadStep.stop_eq {z z' : ZSlice} (h : ReadStep z z') : z'.stop = z.stop := by
  obtain ⟨k, -, rfl⟩ := h.shape
  rfl

lemma ReadStep.inv {z z' : ZSlice} (h : ReadStep z z') (hz : z.Inv) : z'.Inv := by
  obtain ⟨k, hk, rfl⟩ := h.shape
  obtain ⟨h1, h2⟩ := hz
  have ha : z.as_slice.length = z.len := ZSlice.as_slice_length_of_inv ⟨h1, h2⟩
  have hlen : z.len = z.stop - z.start := rfl
  show z.start + k ≤ z.stop ∧ z.stop ≤ z.buf.length
  rcases hk with hk | hk <;> exact ⟨by omega, h2⟩

lemma ReadsTo.buf_stop_eq {z z' : ZSlice} (h : ReadsTo z z') :
    z'.buf = z.buf ∧ z'.stop = z.stop := by
  induction h with
  | refl => exact ⟨rfl, rfl⟩
  | step b c hab hbc ih => exact ⟨hbc.buf_eq.trans ih.1, hbc.stop_eq.trans ih.2⟩

/-- C1 counterexample: with buffer [0,0,0], start 2, end 1 we have
end ≤ len(buffer) but start > end, so the claim demands the buffer be handed
back; ZSlice::make nevertheless returns a view. -/
theorem C1_counterexample :
    ZSlice.make [0, 0, 0] 2 1 = Except.ok ⟨[0, 0, 0], 2, 1⟩ ∧
    ZSlice.make [0, 0, 0] 2 1 ≠ Except.error [0, 0, 0] := by
  refine ⟨rfl, ?_⟩
  intro h
  simp [ZSlice.make] at h

/-- C1 (amended): ZSlice::make returns a view exactly when end ≤ len(buffer)
— start ≤ end is never checked — and otherwise returns the buffer back
unchanged, without panicking. -/
theorem C1_make_spec (buf : Buffer) (start stop : Nat) :
    (stop ≤ buf.length → ZSlice.make buf start stop = Except.ok ⟨buf, start, stop⟩) ∧
    (buf.length < stop → ZSlice.make buf start stop = Except.error buf) := by
  constructor
  · intro h
    simp [ZSlice.make, h]
  · intro h
    simp [ZSlice.make, Nat.not_le.mpr h]

/-- C1 witness: the amended statement evaluated on a two-byte buffer, once in
bounds and once out of bounds. -/
theorem C1_make_spec_witness :
    ZSlice.make [5, 6] 0 2 = Except.ok ⟨[5, 6], 0, 2⟩ ∧
    ZSlice.make [5, 6] 0 3 = Except.error [5, 6] :=
  ⟨(C1_make_spec [5, 6] 0 2).1 (by decide), (C1_make_spec [5, 6] 0 3).2 (by decide)⟩

/-- C5 counterexample: on a view of length 4, sub-view offsets a = 3, b = 1
do not satisfy a ≤ b, so the claim demands None; new_sub_slice nevertheless
returns a view (with start > end). -/
theorem C5_counterexample :
    ¬ (3 : Nat) ≤ 1 ∧
    ZSlice.new_sub_slice ⟨[0, 0, 0, 0], 0, 4⟩ 3 1 = some ⟨[0, 0, 0, 0], 3, 1⟩ ∧
    ZSlice.new_sub_slice ⟨[0, 0, 0, 0], 0, 4⟩ 3 1 ≠ none := by
  refine ⟨by decide, rfl, ?_⟩
  decide

/-- C5 (amended): sub-view(a, b) returns Some exactly when b ≤ len(s) — the
offset a is never compared with b — and the returned view shares the buffer
with absolute bounds s.start+a and s.start+b; whenever additionally a ≤ b,
its bytes equal s.bytes[a..b]. -/
theorem C5_sub_view (s : ZSlice) (a b : Nat) (hs : s.Inv) :
    ((s.new_sub_slice a b).isSome ↔ b ≤ s.len) ∧
    (∀ t, s.new_sub_slice a b = some t →
        t.buf = s.buf ∧ t.start = s.start + a ∧ t.stop = s.start + b) ∧
    (a ≤ b → ∀ t, s.new_sub_slice a b = some t →
        t.as_slice = (s.as_slice.drop a).take (b - a)) := by
  obtain ⟨h1, h2⟩ := hs
  by_cases hb : b ≤ s.len
  · have hsome : s.new_sub_slice a b = some ⟨s.buf, s.start + a, s.start + b⟩ := by
      simp [ZSlice.new_sub_slice, hb]
    refine ⟨by simp [hsome, hb], ?_, ?_⟩
    · intro t ht
      rw [hsome] at ht
      injection ht with ht
      subst ht
      exact ⟨rfl, rfl, rfl⟩
    · intro hab t ht
      rw [hsome] at ht
      injection ht with ht
      subst ht
      show (s.buf.take (s.start + b)).drop (s.start + a) =
        (((s.buf.take s.stop).drop s.start).drop a).take (b - a)
      have hblen : b ≤ s.stop - s.start := hb
      rw [List.drop_drop, List.drop_take, List.drop_take, List.take_take]
      congr 1
      omega
  · have hnone : s.new_sub_slice a b = none := by
      simp [ZSlice.new_sub_slice, hb]
    refine ⟨by simp [hnone, hb], ?_, ?_⟩
    · intro t ht
      rw [hnone] at ht
      cases ht
    · intro _ t ht
      rw [hnone] at ht
      cases ht

/-- C5 witness: sub-view(1, 3) of the full view over [1,2,3,4] holds bytes
[2,3], i.e. bytes 1..3 of the parent view. -/
theorem C5_sub_view_witness :
    ZSlice.as_slice ⟨[1, 2, 3, 4], 1, 3⟩ =
      ((ZSlice.as_slice ⟨[1, 2, 3, 4], 0, 4⟩).drop 1).take 2 :=
  (C5_sub_view ⟨[1, 2, 3, 4], 0, 4⟩ 1 3 (by decide)).2.2 (by decide) _ rfl

/-- C6 counterexample: view over [10,20,30] with window [0,1) has length 1;
index 1 is out of the window, so the claim demands a panic, yet Index<usize>
checks against the backing buffer and returns buffer byte 20 (which window
indexing would reject). -/
theorem C6_counterexample :
    ZSlice.len ⟨[10, 20, 30], 0, 1⟩ ≤ 1 ∧
    ZSlice.indexUsize ⟨[10, 20, 30], 0, 1⟩ 1 = some 20 ∧
    ZSlice.windowIndex ⟨[10, 20, 30], 0, 1⟩ 1 = none := by
  decide

/-- C6 (amended): v[i] agrees with window indexing and yields a byte whenever
i < len(v); but the bounds check is against the backing buffer, so v[i]
panics exactly when start + i ≥ len(buffer) — for len(v) ≤ i with
start + i < len(buffer) it returns a buffer byte beyond the window instead of
panicking. -/
theorem C6_index (v : ZSlice) (i : Nat) (hv : v.Inv) :
    (i < v.len → v.indexUsize i = v.windowIndex i ∧ (v.indexUsize i).isSome) ∧
    (v.indexUsize i = none ↔ v.buf.length ≤ v.start + i) := by
  obtain ⟨h1, h2⟩ := hv
  have hlen : v.len = v.stop - v.start := rfl
  constructor
  · intro hi
    have his : v.start + i < v.stop := by omega
    have hib : v.start + i < v.buf.length := by omega
    constructor
    · unfold ZSlice.indexUsize ZSlice.windowIndex ZSlice.as_slice
      rw [List.getElem?_drop, List.getElem?_take_of_lt his]
    · unfold ZSlice.indexUsize
      rw [List.getElem?_eq_getElem hib]
      rfl
  · unfold ZSlice.indexUsize
    exact List.getElem?_eq_none_iff

/-- C6 witness: the amended statement evaluated on the full view over [7,8]
at index 1 (in window: agreement and a byte) and on the out-of-buffer side. -/
theorem C6_index_witness :
    (ZSlice.indexUsize ⟨[7, 8], 0, 2⟩ 1 = ZSlice.windowIndex ⟨[7, 8], 0, 2⟩ 1 ∧
      (ZSlice.indexUsize ⟨[7, 8], 0, 2⟩ 1).isSome) ∧
    (ZSlice.indexUsize ⟨[7, 8], 0, 2⟩ 2 = none ↔ (2 : Nat) ≤ 0 + 2) :=
  ⟨(C6_index ⟨[7, 8], 0, 2⟩ 1 (by decide)).1 (by decide),
   (C6_index ⟨[7, 8], 0, 2⟩ 2 (by decide)).2⟩

/-- C7: after taking m = mark() (the cursor) and any sequence of successful
reads, rewind(m) returns true and restores exactly the original reader state,
hence the same remaining() and the same next-read output. -/
theorem C7_backtrack (z z' : ZSlice) (h : ReadsTo z z') :
    (z'.rewind z.mark).fst = true ∧
    (z'.rewind z.mark).snd = z ∧
    ((z'.rewind z.mark).snd).remaining = z.remaining ∧
    ((z'.rewind z.mark).snd).read_u8 = z.read_u8 := by
  obtain ⟨hb, hs⟩ := h.buf_stop_eq
  have hz : (z'.rewind z.mark).snd = z := by
    show ({ z' with start := z.mark } : ZSlice) = z
    have hmk : ({ z' with start := z.mark } : ZSlice) = ⟨z'.buf, z.start, z'.stop⟩ := rfl
    rw [hmk, hb, hs]
  exact ⟨rfl, hz, by rw [hz], by rw [hz]⟩

/-- C7 witness: on the reader over [1,2,3,4], mark at cursor 0, read a
two-byte sub-slice, rewind: the rewind returns true and the state is again
the original one. -/
theorem C7_backtrack_witness :
    (ZSlice.rewind ⟨[1, 2, 3, 4], 2, 4⟩ (ZSlice.mark ⟨[1, 2, 3, 4], 0, 4⟩)).fst = true ∧
    (ZSlice.rewind ⟨[1, 2, 3, 4], 2, 4⟩ (ZSlice.mark ⟨[1, 2, 3, 4], 0, 4⟩)).snd =
      ⟨[1, 2, 3, 4], 0, 4⟩ := by
  have hstep : ReadStep ⟨[1, 2, 3, 4], 0, 4⟩ ⟨[1, 2, 3, 4], 2, 4⟩ :=
    ReadStep.read_zslice _ 2 ⟨[1, 2, 3, 4], 0, 2⟩ _ rfl
  have h := C7_backtrack ⟨[1, 2, 3, 4], 0, 4⟩ ⟨[1, 2, 3, 4], 2, 4⟩
    (ReadsTo.step _ _ _ (ReadsTo.refl _) hstep)
  exact ⟨h.1, h.2.1⟩

/-- C8: read_zslice(len) fails exactly when the remaining window is shorter
than len; on success it returns the sub-view holding the next len bytes of
the window, advancing the cursor by len while keeping buffer and end; and for
1 ≤ len ≤ remaining it produces the same bytes and the same advanced reader
state that read into a len-byte buffer produces. -/
theorem C8_read_zslice (z : ZSlice) (len : Nat) (hz : z.Inv) :
    (z.read_zslice len = none ↔ z.remaining < len) ∧
    (∀ res z', z.read_zslice len = some (res, z') →
        res.as_slice = z.as_slice.take len ∧
        z'.buf = z.buf ∧ z'.stop = z.stop ∧ z'.start = z.start + len) ∧
    (1 ≤ len → len ≤ z.remaining →
        z.read len = some (z.as_slice.take len, { z with start := z.start + len }) ∧
        z.read_zslice len =
          some (⟨z.buf, z.start, z.start + len⟩, { z with start := z.start + len })) := by
  obtain ⟨h1, h2⟩ := hz
  have hlen : z.len = z.stop - z.start := rfl
  have haslen : z.as_slice.length = z.len := ZSlice.as_slice_length_of_inv ⟨h1, h2⟩
  by_cases hle : len ≤ z.len
  · have hz0 : z.new_sub_slice 0 len = some ⟨z.buf, z.start + 0, z.start + len⟩ := by
      simp [ZSlice.new_sub_slice, hle]
    have hrz : z.read_zslice len =
        some (⟨z.buf, z.start, z.start + len⟩, { z with start := z.start + len }) := by
      unfold ZSlice.read_zslice
      rw [hz0]
      rfl
    refine ⟨?_, ?_, ?_⟩
    · rw [hrz]
      simp only [ZSlice.remaining]
      constructor
      · intro hc
        cases hc
      · intro hc
        omega
    · intro res z' hres
      rw [hrz] at hres
      simp only [Option.some.injEq, Prod.mk.injEq] at hres
      obtain ⟨hres1, hres2⟩ := hres
      subst hres1
      subst hres2
      refine ⟨?_, rfl, rfl, rfl⟩
      show (z.buf.take (z.start + len)).drop z.start =
        (((z.buf.take z.stop).drop z.start).take len : List Nat)
      rw [List.drop_take, List.drop_take, List.take_take]
      congr 1
      omega
    · intro hl1 hl2
      have hmin : min len z.as_slice.length = len := by
        rw [haslen]
        omega
      refine ⟨?_, hrz⟩
      unfold ZSlice.read
      rw [hmin, if_neg (by omega)]
  · have hz0 : z.new_sub_slice 0 len = none := by
      simp [ZSlice.new_sub_slice, hle]
    have hrz : z.read_zslice len = none := by
      unfold ZSlice.read_zslice
      rw [hz0]
    refine ⟨?_, ?_, ?_⟩
    · rw [hrz]
      simp only [ZSlice.remaining]
      constructor
      · intro _
        omega
      · intro _
        trivial
    · intro res z' hres
      rw [hrz] at hres
      cases hres
    · intro _ hl2
      exact absurd hl2 hle

/-- C8 witness: on the full view over [1,2,3,4] with len 3, read and
read_zslice produce the bytes [1,2,3] and both advance the cursor to 3. -/
theorem C8_read_zslice_witness :
    ZSlice.read ⟨[1, 2, 3, 4], 0, 4⟩ 3 = some ([1, 2, 3], ⟨[1, 2, 3, 4], 3, 4⟩) ∧
    ZSlice.read_zslice ⟨[1, 2, 3, 4], 0, 4⟩ 3 =
      some (⟨[1, 2, 3, 4], 0, 3⟩, ⟨[1, 2, 3, 4], 3, 4⟩) :=
  (C8_read_zslice ⟨[1, 2, 3, 4], 0, 4⟩ 3 (by decide)).2.2 (by decide) (by decide)

/-- C10: rewind(m) sets the cursor to m and returns true unconditionally,
with no validation of m against the view; a mark beyond the view's end yields
a state with start > end, breaking the start ≤ end ≤ len(buffer) invariant
that every successful reader operation preserves. -/
theorem C10_rewind_unchecked (z : ZSlice) (m : Nat) :
    z.rewind m = (true, { z with start := m }) ∧
    (z.stop < m → ¬ ZSlice.Inv { z with start := m }) ∧
    (∀ a b : ZSlice, a.Inv → ReadStep a b → b.Inv) := by
  refine ⟨rfl, ?_, fun a b ha hab => hab.inv ha⟩
  intro hm hinv
  obtain ⟨hi1, -⟩ := hinv
  have hms : m ≤ z.stop := hi1
  omega

/-- C10 witness: rewinding the one-byte view [9] with window [0,1) to mark 5
succeeds and produces the invariant-breaking state (start 5, end 1). -/
theorem C10_rewind_unchecked_witness :
    ZSlice.rewind ⟨[9], 0, 1⟩ 5 = (true, ⟨[9], 5, 1⟩) ∧
    ¬ ZSlice.Inv ⟨[9], 5, 1⟩ := by
  have h := C10_rewind_unchecked ⟨[9], 0, 1⟩ 5
  exact ⟨h.1, h.2.1 (by decide)⟩

/-- C2: for a builder whose key expression is valid, resolution declares a
prefix at most once and never when the key expression is already fully
optimised against the session; on success it declares the publisher exactly
once, and the handle captures all QoS fields, the downgraded (weakened)
session and undeclare_on_drop = true. -/
theorem C2_declare_publisher (b : PublisherBuilder) (k : KeyExpr)
    (hk : b.key_expr = .ok k) :
    countDeclExprId (b.wait).snd ≤ 1 ∧
    (k.is_fully_optimized b.session.sid = true → countDeclExprId (b.wait).snd = 0) ∧
    (∀ p, (b.wait).fst = .ok p →
      countDeclPub (b.wait).snd = 1 ∧
      p.session = b.session.downgrade ∧
      p.encoding = b.encoding ∧
      p.congestion_control = b.congestion_control ∧
      p.priority = b.priority ∧
      p.is_express = b.is_express ∧
      p.destination = b.destination ∧
      p.reliability = b.reliability ∧
      p.undeclare_on_drop = true) := by
  by_cases hopt : k.is_fully_optimized b.session.sid = true
  · cases hp : b.session.declarePublisherInner k b.destination with
    | error e =>
      have hw : b.wait = (.error e, [.declarePublisherInner k b.destination]) := by
        simp [PublisherBuilder.wait, hk, hopt, hp]
      rw [hw]
      refine ⟨by simp [countDeclExprId], fun _ => by simp [countDeclExprId], ?_⟩
      intro p hpp
      exact absurd hpp (by simp)
    | ok id =>
      have hw : b.wait =
          (.ok { session := b.session.downgrade
                 id := id
                 key_expr := k
                 encoding := b.encoding
                 congestion_control := b.congestion_control
                 priority := b.priority
                 is_express := b.is_express
                 destination := b.destination
                 reliability := b.reliability
                 undeclare_on_drop := true },
           [.declarePublisherInner k b.destination]) := by
        simp [PublisherBuilder.wait, hk, hopt, hp]
      rw [hw]
      refine ⟨by simp [countDeclExprId], fun _ => by simp [countDeclExprId], ?_⟩
      intro p hpp
      simp only [Except.ok.injEq] at hpp
      subst hpp
      exact ⟨by simp [countDeclPub, countDeclExprId], rfl, rfl, rfl, rfl, rfl, rfl, rfl, rfl⟩
  · cases hd : b.session.declExprId k.as_str with
    | error e =>
      have hw : b.wait = (.error e, [.declExprId k.as_str]) := by
        simp [PublisherBuilder.wait, hk, hopt, hd]
      rw [hw]
      refine ⟨by simp [countDeclExprId], fun ho => absurd ho hopt, ?_⟩
      intro p hpp
      exact absurd hpp (by simp)
    | ok expr_id =>
      cases hke1 : (match k.inner with
        | .borrowed ke =>
          (⟨.borrowedWire ke expr_id .sender k.len b.session.sid⟩ : KeyExpr)
        | .borrowedWire ke _ _ _ _ =>
          ⟨.borrowedWire ke expr_id .sender k.len b.session.sid⟩
        | .owned ke => ⟨.wire ke expr_id .sender k.len b.session.sid⟩
        | .wire ke _ _ _ _ => ⟨.wire ke expr_id .sender k.len b.session.sid⟩) with
      | mk inner1 =>
        cases hp : b.session.declarePublisherInner ⟨inner1⟩ b.destination with
        | error e =>
          have hw : b.wait = (.error e,
              [.declExprId k.as_str, .declarePublisherInner ⟨inner1⟩ b.destination]) := by
            simp [PublisherBuilder.wait, hk, hopt, hd, hke1, hp]
          rw [hw]
          refine ⟨by simp [countDeclExprId], fun ho => absurd ho hopt, ?_⟩
          intro p hpp
          exact absurd hpp (by simp)
        | ok id =>
          have hw : b.wait =
              (.ok { session := b.session.downgrade
                     id := id
                     key_expr := ⟨inner1⟩
                     encoding := b.encoding
                     congestion_control := b.congestion_control
                     priority := b.priority
                     is_express := b.is_express
                     destination := b.destination
                     reliability := b.reliability
                     undeclare_on_drop := true },
               [.declExprId k.as_str, .declarePublisherInner ⟨inner1⟩ b.destination]) := by
            simp [PublisherBuilder.wait, hk, hopt, hd, hke1, hp]
          rw [hw]
          refine ⟨by simp [countDeclExprId], fun ho => absurd ho hopt, ?_⟩
          intro p hpp
          simp only [Except.ok.injEq] at hpp
          subst hpp
          exact ⟨by simp [countDeclPub, countDeclExprId], rfl, rfl, rfl, rfl, rfl, rfl, rfl, rfl⟩

/-- C2 witness: resolving the demo builder (valid key "a/b", not yet
optimised) on the demo session declares the prefix at most once, the
publisher exactly once, and yields the handle demoP with the weakened session
and undeclare_on_drop = true. -/
theorem C2_declare_publisher_witness :
    countDeclExprId (demoPubBuilder.wait).snd ≤ 1 ∧
    countDeclPub (demoPubBuilder.wait).snd = 1 ∧
    demoP.session = demoSession.downgrade ∧
    demoP.undeclare_on_drop = true := by
  have h := C2_declare_publisher demoPubBuilder demoKey rfl
  have h3 := h.2.2 demoP rfl
  exact ⟨h.1, h3.1, h3.2.1, h3.2.2.2.2.2.2.2.2⟩

/-- C3: Delete resolution on both paths issues exactly the resolve_put call
with empty payload, Delete sample kind and the reserved ZENOH_BYTES encoding,
forwarding the target's QoS fields (congestion control, priority, express,
destination, reliability) plus timestamp, source info and attachment. -/
theorem C3_delete (bs : PublicationBuilder PublisherBuilder PublicationBuilderDelete)
    (bp : PublicationBuilder Publisher PublicationBuilderDelete)
    (k : KeyExpr) (hk : bs.publisher.key_expr = .ok k) :
    sessionDeleteWait bs =
      (bs.publisher.session.resolvePut k ZBytes.new .delete Encoding.ZENOH_BYTES
         bs.publisher.congestion_control bs.publisher.priority
         bs.publisher.is_express bs.publisher.destination
         bs.publisher.reliability bs.timestamp bs.source_info bs.attachment,
       [.resolvePut k ZBytes.new .delete Encoding.ZENOH_BYTES
         bs.publisher.congestion_control bs.publisher.priority
         bs.publisher.is_express bs.publisher.destination
         bs.publisher.reliability bs.timestamp bs.source_info bs.attachment]) ∧
    publisherDeleteWait bp =
      (bp.publisher.session.session.resolvePut bp.publisher.key_expr ZBytes.new
         .delete Encoding.ZENOH_BYTES bp.publisher.congestion_control
         bp.publisher.priority bp.publisher.is_express bp.publisher.destination
         bp.publisher.reliability bp.timestamp bp.source_info bp.attachment,
       [.resolvePut bp.publisher.key_expr ZBytes.new .delete Encoding.ZENOH_BYTES
         bp.publisher.congestion_control bp.publisher.priority
         bp.publisher.is_express bp.publisher.destination
         bp.publisher.reliability bp.timestamp bp.source_info bp.attachment]) := by
  constructor
  · simp [sessionDeleteWait, hk]
  · rfl

/-- C3 witness: the two Delete resolutions evaluated on the demo session-path
and demo publisher-path builders. -/
theorem C3_delete_witness :
    sessionDeleteWait demoDeleteSession =
      (Except.ok (),
       [.resolvePut demoKey ZBytes.new .delete Encoding.ZENOH_BYTES
          .block 5 false .any .reliable none 0 none]) ∧
    publisherDeleteWait demoDeletePublisher =
      (Except.ok (),
       [.resolvePut ⟨.wire "a/b" 42 .sender 3 7⟩ ZBytes.new .delete
          Encoding.ZENOH_BYTES .block 5 false .any .reliable none 0 none]) := by
  have h := C3_delete demoDeleteSession demoDeletePublisher demoKey rfl
  exact ⟨h.1, h.2⟩

/-- C4: the session-path put resolution never calls declare_prefix or
declare_publisher_inner (so no publisher is declared and no handle is built);
when the key expression is valid it issues exactly one resolve_put carrying
the builder's payload, encoding and QoS. -/
theorem C4_session_put (b : PublicationBuilder PublisherBuilder PublicationBuilderPut) :
    countDeclExprId (sessionPutWait b).snd = 0 ∧
    countDeclPub (sessionPutWait b).snd = 0 ∧
    (∀ k, b.publisher.key_expr = .ok k →
      countResolvePut (sessionPutWait b).snd = 1 ∧
      sessionPutWait b =
        (b.publisher.session.resolvePut k b.kind.payload .put b.kind.encoding
           b.publisher.congestion_control b.publisher.priority
           b.publisher.is_express b.publisher.destination
           b.publisher.reliability b.timestamp b.source_info b.attachment,
         [.resolvePut k b.kind.payload .put b.kind.encoding
           b.publisher.congestion_control b.publisher.priority
           b.publisher.is_express b.publisher.destination
           b.publisher.reliability b.timestamp b.source_info b.attachment])) := by
  cases hk : b.publisher.key_expr with
  | error e =>
    have hw : sessionPutWait b = (.error e, []) := by
      simp [sessionPutWait, hk]
    rw [hw]
    refine ⟨rfl, rfl, ?_⟩
    intro k hkk
    exact absurd hkk (by simp)
  | ok k0 =>
    have hw : sessionPutWait b =
        (b.publisher.session.resolvePut k0 b.kind.payload .put b.kind.encoding
           b.publisher.congestion_control b.publisher.priority
           b.publisher.is_express b.publisher.destination
           b.publisher.reliability b.timestamp b.source_info b.attachment,
         [.resolvePut k0 b.kind.payload .put b.kind.encoding
           b.publisher.congestion_control b.publisher.priority
           b.publisher.is_express b.publisher.destination
           b.publisher.reliability b.timestamp b.source_info b.attachment]) := by
      simp [sessionPutWait, hk]
    rw [hw]
    refine ⟨rfl, rfl, ?_⟩
    intro k hkk
    injection hkk with hkk
    subst hkk
    exact ⟨rfl, rfl⟩

/-- C4 witness: the session-path put evaluated on the demo builder: zero
declarations and exactly one resolve_put. -/
theorem C4_session_put_witness :
    countDeclExprId (sessionPutWait demoPutSession).snd = 0 ∧
    countDeclPub (sessionPutWait demoPutSession).snd = 0 ∧
    countResolvePut (sessionPutWait demoPutSession).snd = 1 := by
  have h := C4_session_put demoPutSession
  exact ⟨h.1, h.2.1, (h.2.2 demoKey rfl).1⟩

/-- C9: cloning a Publisher Builder deep-clones the key-expression result —
a valid key expression clones to the equal valid value, an error clones to a
new error annotated "Cloned KE Error", never to a success — and preserves the
session reference and every other field. -/
theorem C9_clone (b : PublisherBuilder) :
    (∀ k, b.key_expr = .ok k → b.clone.key_expr = .ok k) ∧
    (∀ e, b.key_expr = .error e →
        b.clone.key_expr = .error ("Cloned KE Error: " ++ e)) ∧
    (∀ e, b.key_expr = .error e → ∀ k, b.clone.key_expr ≠ .ok k) ∧
    b.clone.session.sid = b.session.sid ∧
    b.clone.encoding = b.encoding ∧
    b.clone.congestion_control = b.congestion_control ∧
    b.clone.priority = b.priority ∧
    b.clone.is_express = b.is_express ∧
    b.clone.reliability = b.reliability ∧
    b.clone.destination = b.destination := by
  refine ⟨?_, ?_, ?_, rfl, rfl, rfl, rfl, rfl, rfl, rfl⟩
  · intro k hk
    simp [PublisherBuilder.clone, hk]
  · intro e he
    simp [PublisherBuilder.clone, he]
  · intro e he k hk
    rw [show b.clone.key_expr = .error ("Cloned KE Error: " ++ e) by
      simp [PublisherBuilder.clone, he]] at hk
    cases hk

/-- C9 witness: cloning the demo builder with the failed key expression
"bad" gives the annotated error (and never a success), and cloning preserves
the encoding. -/
theorem C9_clone_witness :
    demoBadBuilder.clone.key_expr = .error ("Cloned KE Error: " ++ "bad") ∧
    demoBadBuilder.clone.encoding = demoBadBuilder.encoding := by
  have h := C9_clone demoBadBuilder
  exact ⟨h.2.1 "bad" rfl, h.2.2.2.2.1⟩
